import Mathlib

/-!
Shallow embedding of the PAM assessment scoring and aggregation engine
(src/app/processor.py, src/app/aggregator.py, src/app/main.py).

Conventions of the embedding:
* Python floats are modelled as rationals (all quantities in the engine are
  exact decimal fractions of integers).
* Python `round(x, 2)` is modelled by `round2` below (round half up at the
  second decimal; the engine is exercised away from half-cent ties, where
  the two conventions agree).
* Dictionaries of raw form answers are modelled as association lists of
  `(key, value-list)` pairs, in iteration order.
* Timestamps are modelled as naturals (only their ordering matters to the
  code); a missing timestamp is `none`.
* The remark text table `SUBCATEGORY_REMARKS` is a static lookup keyed by
  (category, behavior, band); the embedding keeps the key (the band and the
  rounded score) and elides the fixed English prose, which no computation
  inspects.
-/

inductive Category
  | trusting
  | tasking
  | tending
  deriving DecidableEq

inductive Segment
  | STR
  | STA
  | STE
  deriving DecidableEq

inductive QType
  | direct
  | reconfirmation
  | reverse
  deriving DecidableEq

inductive Band
  | red
  | amber
  | green
  deriving DecidableEq

/-- The twelve subcategory ("behavior") labels of the catalog, constructor
names abbreviating the strings used in the source. -/
inductive Behavior
  | honesty        -- "Honesty, Dependability & Fairness"
  | delegation     -- "Task Delegation Without Bias"
  | support        -- "Providing Necessary Support"
  | communication  -- "Encouraging Open Communication"
  | roles          -- "Defining Roles & Responsibilities"
  | planning       -- "Planning & Organizing"
  | prioritising   -- "Prioritising Tasks"
  | monitoring     -- "Monitoring Progress & Providing Assistance"
  | learning       -- "Helping Team Members Learn & Improve"
  | collaborative  -- "Creating a Collaborative Environment"
  | conflicts      -- "Resolving Conflicts & Fostering Camaraderie"
  | recognising    -- "Recognising & Rewarding Achievement"
  deriving DecidableEq

/-- `SUBCATEGORY_ORDER` of src/app/processor.py: the four behaviors of each
category, in catalog order. -/
def SUBCATEGORY_ORDER : Category → List Behavior
  | .trusting => [.honesty, .delegation, .support, .communication]
  | .tasking => [.roles, .planning, .prioritising, .monitoring]
  | .tending => [.learning, .collaborative, .conflicts, .recognising]

/-- One entry of `QUESTION_SCHEMA` in src/app/processor.py. -/
structure QSchema where
  segment : Segment
  qtype : QType
  category : Category
  behavior : Behavior
  deriving DecidableEq

/-- `QUESTION_SCHEMA` of src/app/processor.py as an association list from
question code to schema entry, in source order. -/
def schemaList : List (String × QSchema) :=
  [ ("STR_1", ⟨.STR, .direct, .trusting, .honesty⟩),
    ("STR_2", ⟨.STR, .reconfirmation, .trusting, .honesty⟩),
    ("STR_3", ⟨.STR, .reverse, .trusting, .honesty⟩),
    ("STR_4", ⟨.STR, .direct, .trusting, .delegation⟩),
    ("STR_5", ⟨.STR, .reconfirmation, .trusting, .delegation⟩),
    ("STR_6", ⟨.STR, .reverse, .trusting, .delegation⟩),
    ("STR_7", ⟨.STR, .direct, .trusting, .support⟩),
    ("STR_8", ⟨.STR, .reconfirmation, .trusting, .support⟩),
    ("STR_9", ⟨.STR, .reverse, .trusting, .support⟩),
    ("STR_10", ⟨.STR, .direct, .trusting, .communication⟩),
    ("STR_11", ⟨.STR, .reconfirmation, .trusting, .communication⟩),
    ("STR_12", ⟨.STR, .reverse, .trusting, .communication⟩),
    ("STA_1", ⟨.STA, .direct, .tasking, .roles⟩),
    ("STA_2", ⟨.STA, .reconfirmation, .tasking, .roles⟩),
    ("STA_3", ⟨.STA, .reverse, .tasking, .roles⟩),
    ("STA_4", ⟨.STA, .direct, .tasking, .planning⟩),
    ("STA_5", ⟨.STA, .reconfirmation, .tasking, .planning⟩),
    ("STA_6", ⟨.STA, .reverse, .tasking, .planning⟩),
    ("STA_7", ⟨.STA, .direct, .tasking, .prioritising⟩),
    ("STA_8", ⟨.STA, .reconfirmation, .tasking, .prioritising⟩),
    ("STA_9", ⟨.STA, .reverse, .tasking, .prioritising⟩),
    ("STA_10", ⟨.STA, .direct, .tasking, .monitoring⟩),
    ("STA_11", ⟨.STA, .reconfirmation, .tasking, .monitoring⟩),
    ("STA_12", ⟨.STA, .reverse, .tasking, .monitoring⟩),
    ("STE_1", ⟨.STE, .direct, .tending, .learning⟩),
    ("STE_2", ⟨.STE, .reconfirmation, .tending, .learning⟩),
    ("STE_3", ⟨.STE, .reverse, .tending, .learning⟩),
    ("STE_4", ⟨.STE, .direct, .tending, .collaborative⟩),
    ("STE_5", ⟨.STE, .reconfirmation, .tending, .collaborative⟩),
    ("STE_6", ⟨.STE, .reverse, .tending, .collaborative⟩),
    ("STE_7", ⟨.STE, .direct, .tending, .conflicts⟩),
    ("STE_8", ⟨.STE, .reconfirmation, .tending, .conflicts⟩),
    ("STE_9", ⟨.STE, .reverse, .tending, .conflicts⟩),
    ("STE_10", ⟨.STE, .direct, .tending, .recognising⟩),
    ("STE_11", ⟨.STE, .reconfirmation, .tending, .recognising⟩),
    ("STE_12", ⟨.STE, .reverse, .tending, .recognising⟩) ]

/-- Lookup in `QUESTION_SCHEMA` (a Python dict keyed by question code). -/
def QUESTION_SCHEMA (code : String) : Option QSchema :=
  (schemaList.find? (fun p => p.1 = code)).map (fun p => p.2)

/-- `SCORE_MAP` of src/app/processor.py: dict from answer-type to option
label to score; `.get(answer)` yields `none` on an unknown label. -/
def SCORE_MAP (t : QType) (answer : String) : Option ℤ :=
  match answer with
  | "Never" => some (match t with | .reverse => 3 | _ => 1)
  | "Sometimes" => some 2
  | "Always" => some (match t with | .reverse => 1 | _ => 3)
  | _ => none

/-- Python `round(x, 2)` on the engine's exact decimal values. -/
def round2 (q : ℚ) : ℚ := (round (q * 100) : ℤ) / 100

/-- Python `round(x, 1)` (used for the score shown in a remark entry). -/
def round1 (q : ℚ) : ℚ := (round (q * 10) : ℤ) / 10

/-- `_score_band` of src/app/processor.py. -/
def score_band (score : ℚ) : Band :=
  if 8 ≤ score then .green
  else if 6 ≤ score then .amber
  else .red

/-- One entry of the remark context built by
`build_subcategory_remark_context`: the rounded score and the band that
select the (static) remark string for the behavior. -/
structure RemarkEntry where
  behavior : Behavior
  score : ℚ
  band : Band
  deriving DecidableEq

/-- `get_subcategory_remark` of src/app/processor.py restricted to the data
that determines the remark lookup. -/
def get_subcategory_remark (b : Behavior) (score : ℚ) : RemarkEntry :=
  ⟨b, round1 score, score_band score⟩

/-- `build_subcategory_remark_context` of src/app/processor.py: for each
category its four behaviors' remark entries, in catalog order. -/
def build_subcategory_remark_context (avg : Behavior → ℚ) :
    Category → List RemarkEntry :=
  fun c => (SUBCATEGORY_ORDER c).map (fun b => get_subcategory_remark b (avg b))

/-- `compute_subcategory_averages` of src/app/processor.py: per-behavior raw
marks on a 0-9 scale (3 questions × max score 3). -/
def compute_subcategory_averages (tot : Behavior → ℤ) (cnt : Behavior → ℕ) :
    Behavior → ℚ :=
  fun b => if 0 < cnt b then round2 (((tot b : ℚ) / (cnt b : ℚ)) * 3) else 0

/-! ### String helpers

Python string primitives used by the scorer, re-implemented structurally
over character lists so that every theorem below can be evaluated by the
kernel. -/

/-- Whether the first list is an initial run of the second. -/
def listStartsWith : List Char → List Char → Bool
  | [], _ => true
  | _ :: _, [] => false
  | a :: as, b :: bs => a == b && listStartsWith as bs

/-- Whether the first list occurs contiguously inside the second
(Python `needle in hay`). -/
def listHasSub (n : List Char) : List Char → Bool
  | [] => listStartsWith n []
  | c :: t => listStartsWith n (c :: t) || listHasSub n t

/-- Python `needle in hay` on strings. -/
def strHasSub (needle hay : String) : Bool :=
  listHasSub needle.toList hay.toList

/-- Python `str.lower()` (ASCII, as used by the engine). -/
def lowerStr (s : String) : String :=
  String.mk (s.toList.map Char.toLower)

/-- Python `str.strip()`. -/
def stripStr (s : String) : String :=
  String.mk (((s.toList.dropWhile Char.isWhitespace).reverse.dropWhile
    Char.isWhitespace).reverse)

/-- Accumulator pass behind `wordsOf`. -/
def wordsAux : List Char → List Char → List String
  | [], acc => if acc.isEmpty then [] else [String.mk acc.reverse]
  | c :: cs, acc =>
    if c.isWhitespace then
      if acc.isEmpty then wordsAux cs [] else String.mk acc.reverse :: wordsAux cs []
    else wordsAux cs (c :: acc)

/-- Python `str.split()` with no separator: the whitespace-delimited
non-empty tokens of a string. -/
def wordsOf (s : String) : List String := wordsAux s.toList []

/-- Python `str.title()` on a single whitespace-free token: first letter
upper-case, the rest lower-case (the tokens fed to it are plain words). -/
def titleWord (w : String) : String :=
  match w.toList with
  | [] => ""
  | c :: cs => String.mk (c.toUpper :: cs.map Char.toLower)

/-- `normalize_name` of src/app/processor.py. -/
def normalize_name (name : String) : String :=
  if name = "" then ""
  else String.intercalate " " ((wordsOf (stripStr name)).map titleWord)

/-! ### Response scorer (`process_form_answers` of src/app/processor.py) -/

/-- The string "manager's full name" (its apostrophe written as a
character code). -/
def managerFullNameKey : String :=
  "manager" ++ String.mk [Char.ofNat 39] ++ "s full name"

/-- `manager_info` as built by `extract_manager_info`. -/
structure ManagerInfo where
  manager_name : String
  reporting_to : String
  timestamp : String
  raw_manager_name : String
  raw_reporting_to : String
  deriving DecidableEq

/-- The all-empty initial `manager_info` dict. -/
def emptyManagerInfo : ManagerInfo := ⟨"", "", "", "", ""⟩

/-- One loop iteration of `extract_manager_info`. -/
def extractStep (info : ManagerInfo) (kv : String × List String) : ManagerInfo :=
  match kv.2.head? with
  | none => info
  | some v0 =>
    let answer := stripStr v0
    let kl := lowerStr kv.1
    if strHasSub managerFullNameKey kl then
      { info with raw_manager_name := answer, manager_name := normalize_name answer }
    else if strHasSub "manager report to" kl then
      { info with raw_reporting_to := answer, reporting_to := normalize_name answer }
    else if strHasSub "timestamp" kl then
      { info with timestamp := answer }
    else info

/-- `extract_manager_info` of src/app/processor.py. -/
def extract_manager_info (raw : List (String × List String)) : ManagerInfo :=
  raw.foldl extractStep emptyManagerInfo

/-- One successfully scored entry of the main loop of
`process_form_answers`: the resolved question code, the stripped answer
label, and its score. -/
structure ScoredEntry where
  code : String
  answer : String
  score : ℤ
  deriving DecidableEq

/-- Whether `process_form_answers` skips a key by the keyword filter
(`"manager"`, `"report"`, `"timestamp"` as case-insensitive substrings). -/
def keywordFiltered (key : String) : Bool :=
  strHasSub "manager" (lowerStr key) || strHasSub "report" (lowerStr key) ||
    strHasSub "timestamp" (lowerStr key)

/-- The main loop body of `process_form_answers` on one `(key, answers)`
pair: `none` exactly when the source `continue`s past the entry. -/
def scoreEntry (kv : String × List String) : Option ScoredEntry :=
  match kv.2.head? with
  | none => none
  | some v0 =>
    if keywordFiltered kv.1 then none
    else
      match (wordsOf kv.1).head? with
      | none => none
      | some tok =>
        match QUESTION_SCHEMA (stripStr tok) with
        | none => none
        | some qs =>
          match SCORE_MAP qs.qtype (stripStr v0) with
          | none => none
          | some s => some ⟨stripStr tok, stripStr v0, s⟩

/-- The successfully scored entries of an answer map, in iteration order. -/
def scoredEntries (raw : List (String × List String)) : List ScoredEntry :=
  raw.filterMap scoreEntry

/-- The scored entries whose resolved schema entry satisfies `p`. -/
def entriesWhere (raw : List (String × List String)) (p : QSchema → Bool) :
    List ScoredEntry :=
  (scoredEntries raw).filter (fun e => ((QUESTION_SCHEMA e.code).map p).getD false)

/-- `segment_totals` accumulated by the loop of `process_form_answers`. -/
def segmentTotals (raw : List (String × List String)) (s : Segment) : ℤ :=
  ((entriesWhere raw (fun qs => qs.segment = s)).map (fun e => e.score)).sum

/-- `category_totals` accumulated by the loop of `process_form_answers`. -/
def categoryTotalsOf (raw : List (String × List String)) (c : Category) : ℤ :=
  ((entriesWhere raw (fun qs => qs.category = c)).map (fun e => e.score)).sum

/-- `subcategory_scores` accumulated by the loop of `process_form_answers`. -/
def subcategoryTotalsOf (raw : List (String × List String)) (b : Behavior) : ℤ :=
  ((entriesWhere raw (fun qs => qs.behavior = b)).map (fun e => e.score)).sum

/-- `subcategory_counts` accumulated by the loop of `process_form_answers`. -/
def subcategoryCountsOf (raw : List (String × List String)) (b : Behavior) : ℕ :=
  (entriesWhere raw (fun qs => qs.behavior = b)).length

/-- The `answered_questions` set: the distinct scored codes. -/
def answeredCodes (raw : List (String × List String)) : List String :=
  ((scoredEntries raw).map (fun e => e.code)).dedup

/-- `per_question_scores` (a dict keyed by code: a later entry resolving to
the same code overwrites an earlier one). -/
def perQuestionScore (raw : List (String × List String)) (code : String) :
    Option ScoredEntry :=
  (scoredEntries raw).reverse.find? (fun e => e.code = code)

/-- The output of `process_form_answers` (the fields of the returned dict
and of its `meta` sub-dict that carry the scoring state). -/
structure ProcessOut where
  manager_info : ManagerInfo
  per_question_scores : String → Option ScoredEntry
  segment_totals : Segment → ℤ
  category_totals : Category → ℤ
  subcategory_totals : Behavior → ℤ
  subcategory_averages : Behavior → ℚ
  subcategory_remarks : Category → List RemarkEntry
  overall_score : ℤ
  answered_questions : ℕ
  missing_questions : List String
  manager_fields_present : ℕ
  is_complete_response : Bool

/-- `process_form_answers` of src/app/processor.py.  The source sorts
`missing_questions` lexicographically for presentation; the embedding keeps
catalog order (membership is what the theorems use). -/
def process_form_answers (raw : List (String × List String)) : ProcessOut :=
  let info := extract_manager_info raw
  let answered := answeredCodes raw
  let fieldsPresent :=
    (if info.manager_name ≠ "" then 1 else 0) +
      (if info.reporting_to ≠ "" then 1 else 0)
  let subAvg := compute_subcategory_averages
    (subcategoryTotalsOf raw) (subcategoryCountsOf raw)
  { manager_info := info
    per_question_scores := perQuestionScore raw
    segment_totals := segmentTotals raw
    category_totals := categoryTotalsOf raw
    subcategory_totals := subcategoryTotalsOf raw
    subcategory_averages := subAvg
    subcategory_remarks := build_subcategory_remark_context subAvg
    overall_score := segmentTotals raw .STR + segmentTotals raw .STA +
      segmentTotals raw .STE
    answered_questions := answered.length
    missing_questions :=
      (schemaList.map (fun p => p.1)).filter (fun c => !(answered.contains c))
    manager_fields_present := fieldsPresent
    is_complete_response :=
      answered.length == schemaList.length && fieldsPresent == 2 }

/-! ### Manager aggregation -/

/-- The `processed` sub-document of a stored response, as consumed by the
aggregators (built upstream by `process_form_answers`). -/
structure Processed where
  manager_name : String
  reporting_to : String
  raw_manager_name : String
  raw_reporting_to : String
  category_totals : Category → ℤ
  subcategory_totals : Behavior → ℤ

/-- The restriction of a scored response to its aggregation-relevant
fields. -/
def toProcessed (p : ProcessOut) : Processed :=
  { manager_name := p.manager_info.manager_name
    reporting_to := p.manager_info.reporting_to
    raw_manager_name := p.manager_info.raw_manager_name
    raw_reporting_to := p.manager_info.raw_reporting_to
    category_totals := p.category_totals
    subcategory_totals := p.subcategory_totals }

/-- One stored assessment document as the aggregators read it:
its processed scores and its `submittedAt` / `created_at` timestamps
(timestamps are ordered values; `none` models an absent or empty one). -/
structure Assessment where
  processed : Processed
  submittedAt : Option ℕ
  created_at : Option ℕ

/-- `assessment.get("submittedAt") or assessment.get("created_at")`. -/
def timestampOf (a : Assessment) : Option ℕ :=
  a.submittedAt.orElse (fun _ => a.created_at)

/-- The timestamp value of an assessment (0 when absent), used to phrase
"ordered by submission time". -/
def tsval (a : Assessment) : ℕ := (timestampOf a).getD 0

/-- `statistics.stdev(xs) ** 2`, the sample variance with denominator
`n - 1`.  The source stores the square root of this value; the square root
is injective on the non-negatives, so every equality or inequality of
aggregates is unaffected by squaring, and the embedding stays rational. -/
def sampleVarianceSq (xs : List ℤ) : ℚ :=
  let n : ℚ := (xs.length : ℚ)
  let mean : ℚ := ((xs.sum : ℤ) : ℚ) / n
  ((xs.map (fun x => ((x : ℚ) - mean) ^ 2)).sum) / (n - 1)

/-- The per-category `score_distribution` entry: min, max, and the square
of the stored sample standard deviation. -/
structure ScoreDist where
  min : ℤ
  max : ℤ
  stdSq : ℚ
  deriving DecidableEq

/-- `score_distribution` of both aggregators, from the per-response
category-score list (`0` defaults for empty or singleton lists). -/
def scoreDistOf (xs : List ℤ) : ScoreDist :=
  { min := (xs.min?).getD 0
    max := (xs.max?).getD 0
    stdSq := if 1 < xs.length then sampleVarianceSq xs else 0 }

/-- The per-response category-score list collected by the aggregation
loops (`categories.get(category, 0)` appended for every assessment). -/
def categoryScoresList (L : List Assessment) (c : Category) : List ℤ :=
  L.map (fun a => a.processed.category_totals c)

/-- Sum of per-response category totals. -/
def aggCategoryTotals (L : List Assessment) (c : Category) : ℤ :=
  (categoryScoresList L c).sum

/-- Sum of per-response subcategory totals. -/
def aggSubcategoryTotals (L : List Assessment) (b : Behavior) : ℤ :=
  (L.map (fun a => a.processed.subcategory_totals b)).sum

/-- `subcategory_averages` of `aggregate_manager_scores`: the summed
subcategory marks divided by the number of assessments, rounded to two
decimals (`0.0` when there are no assessments). -/
def aggSubcategoryAverages (L : List Assessment) (b : Behavior) : ℚ :=
  if L.length ≠ 0 then round2 ((aggSubcategoryTotals L b : ℚ) / (L.length : ℚ))
  else 0

/-- `category_from_subcategories` of `aggregate_manager_scores`: each
category average rebuilt as the rounded sum of its four subcategory
averages. -/
def aggCategoryAverages (L : List Assessment) (c : Category) : ℚ :=
  round2 (((SUBCATEGORY_ORDER c).map (aggSubcategoryAverages L)).sum)

/-- The timestamps present across the assessments. -/
def aggTimestamps (L : List Assessment) : List ℕ := L.filterMap timestampOf

/-- The aggregate document built by `aggregate_manager_scores` in
src/app/processor.py (`last_updated` is the wall-clock instant of the
call, passed explicitly; `none` in `first_assessment`/`last_assessment`
models the `""` sentinel used when no timestamps are present). -/
structure Aggregate where
  manager_name : String
  reporting_to : String
  raw_manager_name : String
  raw_reporting_to : String
  total_assessments : ℕ
  first_assessment : Option ℕ
  last_assessment : Option ℕ
  category_totals : Category → ℤ
  category_averages : Category → ℚ
  subcategory_totals : Behavior → ℤ
  subcategory_averages : Behavior → ℚ
  subcategory_remarks : Category → List RemarkEntry
  score_distribution : Category → ScoreDist
  confidence_score : ℕ
  last_updated : ℕ

/-- `aggregate_manager_scores` of src/app/processor.py.  Returns `none`
(the source returns `None`) on an empty assessment list. -/
def aggregate_manager_scores (assessments : List Assessment) (now : ℕ) :
    Option Aggregate :=
  match assessments with
  | [] => none
  | a :: rest =>
    let L := a :: rest
    let latest := L.getLast (List.cons_ne_nil a rest)
    some
      { manager_name := latest.processed.manager_name
        reporting_to := latest.processed.reporting_to
        raw_manager_name := latest.processed.raw_manager_name
        raw_reporting_to := latest.processed.raw_reporting_to
        total_assessments := L.length
        first_assessment := (aggTimestamps L).min?
        last_assessment := (aggTimestamps L).max?
        category_totals := aggCategoryTotals L
        category_averages := aggCategoryAverages L
        subcategory_totals := aggSubcategoryTotals L
        subcategory_averages := aggSubcategoryAverages L
        subcategory_remarks :=
          build_subcategory_remark_context (aggSubcategoryAverages L)
        score_distribution := fun c => scoreDistOf (categoryScoresList L c)
        confidence_score := min 100 (L.length * 10)
        last_updated := now }

/-- The aggregate document built by the legacy
`update_manager_aggregation` in src/app/aggregator.py.  It has no
subcategory data at all, and its `category_averages` are the unrounded
`statistics.mean` of the per-response category totals. -/
structure LegacyAggregate where
  manager_name : String
  reporting_to : String
  raw_manager_name : String
  raw_reporting_to : String
  total_assessments : ℕ
  first_assessment : Option ℕ
  last_assessment : Option ℕ
  category_totals : Category → ℤ
  category_averages : Category → ℚ
  score_distribution : Category → ScoreDist
  confidence_score : ℕ
  last_updated : ℕ

/-- `category_averages` of the legacy aggregator:
`statistics.mean(category_scores_list[c])`, with `0` for an empty list. -/
def legacyCategoryAverages (L : List Assessment) (c : Category) : ℚ :=
  if L.length ≠ 0 then (aggCategoryTotals L c : ℚ) / (L.length : ℚ) else 0

/-- `update_manager_aggregation` of src/app/aggregator.py, as a function of
the manager name and the list of stored assessments it fetches (the
database round-trips are the I/O boundary of the embedding).  Returns
`none` when no assessments exist for the manager. -/
def update_manager_aggregation (manager_name : String)
    (assessments : List Assessment) (now : ℕ) : Option LegacyAggregate :=
  match assessments with
  | [] => none
  | a :: rest =>
    let L := a :: rest
    let latest := L.getLast (List.cons_ne_nil a rest)
    some
      { manager_name := manager_name
        reporting_to := latest.processed.reporting_to
        raw_manager_name := latest.processed.raw_manager_name
        raw_reporting_to := latest.processed.raw_reporting_to
        total_assessments := L.length
        first_assessment := (aggTimestamps L).min?
        last_assessment := (aggTimestamps L).max?
        category_totals := aggCategoryTotals L
        category_averages := legacyCategoryAverages L
        score_distribution := fun c => scoreDistOf (categoryScoresList L c)
        confidence_score := min 100 (L.length * 10)
        last_updated := now }

/-- One stored SaaS assessment document as read by
`update_manager_aggregation_saas` in src/app/main.py (scored inline by
`submit_assessment`). -/
structure SaasResponse where
  reporting_to : String
  category_scores : Category → ℤ
  subcategory_scores : Behavior → ℤ
  submission_time : ℕ

/-- The document returned by `find_one(..., sort submission_time
descending)`: an element of maximal `submission_time`.  The database's
choice among ties is unspecified; the embedding keeps the first-seen
maximum. -/
def latestBySubmission (d : SaasResponse) (rest : List SaasResponse) :
    SaasResponse :=
  rest.foldl (fun acc x =>
    if acc.submission_time < x.submission_time then x else acc) d

/-- `subcategory_averages` of the SaaS aggregator: per-behavior summed
marks over all responses, divided by `total_assessments`, rounded to two
decimals. -/
def saasSubAvg (docs : List SaasResponse) (b : Behavior) : ℚ :=
  if docs.length ≠ 0 then
    round2 (((docs.map (fun d => d.subcategory_scores b)).sum : ℚ) /
      (docs.length : ℚ))
  else 0

/-- The `manager_data` document built by `update_manager_aggregation_saas`
in src/app/main.py (its scoring fields; the per-response
`assessment_summaries` bookkeeping list and the database identifiers are
outside the claims and elided). -/
structure SaasAggregate where
  manager_name : String
  reporting_to : String
  total_assessments : ℕ
  category_averages : Category → ℚ
  category_totals : Category → ℤ
  subcategory_averages : Behavior → ℚ
  subcategory_totals : Behavior → ℤ
  subcategory_remarks : Category → List RemarkEntry
  confidence_score : ℕ
  first_assessment : ℕ
  last_assessment : ℕ
  last_updated : ℕ

/-- `update_manager_aggregation_saas` of src/app/main.py, as a function of
the manager name and the stored responses the aggregation pipeline
matches.  When the match set is empty the `$group` stage yields no
document and the function updates nothing (`none`). -/
def update_manager_aggregation_saas (manager_name : String)
    (docs : List SaasResponse) (now : ℕ) : Option SaasAggregate :=
  match docs with
  | [] => none
  | d :: rest =>
    let D := d :: rest
    let subAvg := saasSubAvg D
    some
      { manager_name := manager_name
        reporting_to := (latestBySubmission d rest).reporting_to
        total_assessments := D.length
        category_averages := fun c =>
          round2 (((SUBCATEGORY_ORDER c).map subAvg).sum)
        category_totals := fun c => (D.map (fun x => x.category_scores c)).sum
        subcategory_averages := subAvg
        subcategory_totals := fun b =>
          (D.map (fun x => x.subcategory_scores b)).sum
        subcategory_remarks := build_subcategory_remark_context subAvg
        confidence_score := min (D.length * 5) 100
        first_assessment := ((D.map (fun x => x.submission_time)).min?).getD 0
        last_assessment := ((D.map (fun x => x.submission_time)).max?).getD 0
        last_updated := now }

/-! ### Enumeration instances -/

instance : Fintype Behavior :=
  ⟨⟨{.honesty, .delegation, .support, .communication, .roles, .planning,
     .prioritising, .monitoring, .learning, .collaborative, .conflicts,
     .recognising}, by decide⟩, by intro x; cases x <;> decide⟩

instance : Fintype Category :=
  ⟨⟨{.trusting, .tasking, .tending}, by decide⟩, by intro x; cases x <;> decide⟩

instance : Fintype Segment :=
  ⟨⟨{.STR, .STA, .STE}, by decide⟩, by intro x; cases x <;> decide⟩

/-! ### The `ASSESSMENT_QUESTIONS` catalog of src/app/main.py

Each UI question record carries its own literal `scores` dict; the two
dict shapes that occur are named below, and each catalog row pairs its
`type` with the dict literal appearing at that row of the source. -/

/-- The dict literal `Never 1, Sometimes 2, Always 3`. -/
def scores123 : String → Option ℤ
  | "Never" => some 1
  | "Sometimes" => some 2
  | "Always" => some 3
  | _ => none

/-- The dict literal `Never 3, Sometimes 2, Always 1`. -/
def scores321 : String → Option ℤ
  | "Never" => some 3
  | "Sometimes" => some 2
  | "Always" => some 1
  | _ => none

/-- One entry of `ASSESSMENT_QUESTIONS` (its scoring-relevant fields). -/
structure Question where
  id : String
  qtype : QType
  scores : String → Option ℤ
  category : Category
  behavior : Behavior

/-- `ASSESSMENT_QUESTIONS` of src/app/main.py, flattened in source order. -/
def ASSESSMENT_QUESTIONS : List Question :=
  [ ⟨"STR_1", .direct, scores123, .trusting, .honesty⟩,
    ⟨"STR_2", .reconfirmation, scores123, .trusting, .honesty⟩,
    ⟨"STR_3", .reverse, scores321, .trusting, .honesty⟩,
    ⟨"STR_4", .direct, scores123, .trusting, .delegation⟩,
    ⟨"STR_5", .reconfirmation, scores123, .trusting, .delegation⟩,
    ⟨"STR_6", .reverse, scores321, .trusting, .delegation⟩,
    ⟨"STR_7", .direct, scores123, .trusting, .support⟩,
    ⟨"STR_8", .reconfirmation, scores123, .trusting, .support⟩,
    ⟨"STR_9", .reverse, scores321, .trusting, .support⟩,
    ⟨"STR_10", .direct, scores123, .trusting, .communication⟩,
    ⟨"STR_11", .reconfirmation, scores123, .trusting, .communication⟩,
    ⟨"STR_12", .reverse, scores321, .trusting, .communication⟩,
    ⟨"STA_1", .direct, scores123, .tasking, .roles⟩,
    ⟨"STA_2", .reconfirmation, scores123, .tasking, .roles⟩,
    ⟨"STA_3", .reverse, scores321, .tasking, .roles⟩,
    ⟨"STA_4", .direct, scores123, .tasking, .planning⟩,
    ⟨"STA_5", .reconfirmation, scores123, .tasking, .planning⟩,
    ⟨"STA_6", .reverse, scores321, .tasking, .planning⟩,
    ⟨"STA_7", .direct, scores123, .tasking, .prioritising⟩,
    ⟨"STA_8", .reconfirmation, scores123, .tasking, .prioritising⟩,
    ⟨"STA_9", .reverse, scores321, .tasking, .prioritising⟩,
    ⟨"STA_10", .direct, scores123, .tasking, .monitoring⟩,
    ⟨"STA_11", .reconfirmation, scores123, .tasking, .monitoring⟩,
    ⟨"STA_12", .reverse, scores321, .tasking, .monitoring⟩,
    ⟨"STE_1", .direct, scores123, .tending, .learning⟩,
    ⟨"STE_2", .reconfirmation, scores123, .tending, .learning⟩,
    ⟨"STE_3", .reverse, scores321, .tending, .learning⟩,
    ⟨"STE_4", .direct, scores123, .tending, .collaborative⟩,
    ⟨"STE_5", .reconfirmation, scores123, .tending, .collaborative⟩,
    ⟨"STE_6", .reverse, scores321, .tending, .collaborative⟩,
    ⟨"STE_7", .direct, scores123, .tending, .conflicts⟩,
    ⟨"STE_8", .reconfirmation, scores123, .tending, .conflicts⟩,
    ⟨"STE_9", .reverse, scores321, .tending, .conflicts⟩,
    ⟨"STE_10", .direct, scores123, .tending, .recognising⟩,
    ⟨"STE_11", .reconfirmation, scores123, .tending, .recognising⟩,
    ⟨"STE_12", .reverse, scores321, .tending, .recognising⟩ ]

/-- The polarity contract of the spec for one scoring dict. -/
def polarityOk (t : QType) (sc : String → Option ℤ) : Bool :=
  match t with
  | .reverse =>
    decide (sc "Never" = some 3 ∧ sc "Sometimes" = some 2 ∧ sc "Always" = some 1)
  | _ =>
    decide (sc "Never" = some 1 ∧ sc "Sometimes" = some 2 ∧ sc "Always" = some 3)

/-! ### Concrete inputs used by the theorems -/

/-- Four distinct form keys all resolving to catalog code `STR_1`, each
answered `Always`. -/
def dupKeyAnswers : List (String × List String) :=
  [("STR_1 a", ["Always"]), ("STR_1 b", ["Always"]),
   ("STR_1 c", ["Always"]), ("STR_1 d", ["Always"])]

/-- A fully answered form: every catalog question keyed by its bare code,
with the maximal-scoring option per polarity (`Always` for direct and
reconfirmation questions, `Never` for reverse questions). -/
def fullAnswers : List (String × List String) :=
  schemaList.map
    (fun p => (p.1, [if p.2.qtype = QType.reverse then "Never" else "Always"]))

/-- Scenario B of the spec: one maximal response followed by one completely
empty response. -/
def scenarioB : List Assessment :=
  [⟨toProcessed (process_form_answers fullAnswers), some 1, none⟩,
   ⟨toProcessed (process_form_answers []), some 2, none⟩]

/-- A processed response whose only non-zero mark is a single point on the
`honesty` subcategory (hence on the `trusting` category). -/
def procOnePoint : Processed :=
  { manager_name := "M", reporting_to := "R", raw_manager_name := "M",
    raw_reporting_to := "R",
    category_totals := fun c => if c = .trusting then 1 else 0,
    subcategory_totals := fun b => if b = .honesty then 1 else 0 }

/-- A processed response with all-zero marks. -/
def procZero : Processed :=
  { manager_name := "M", reporting_to := "R", raw_manager_name := "M",
    raw_reporting_to := "R",
    category_totals := fun _ => 0, subcategory_totals := fun _ => 0 }

/-- Three stored assessments whose trusting totals are 1, 0, 0: their mean
is 1/3, which no two-decimal rounding can produce. -/
def threeAssessments : List Assessment :=
  [⟨procOnePoint, some 1, none⟩, ⟨procZero, some 2, none⟩,
   ⟨procZero, some 3, none⟩]

/-- The catalog codes whose schema entry lies in behavior `b` (three per
behavior). -/
def codesWith (b : Behavior) : List String :=
  (schemaList.filter (fun p => p.2.behavior = b)).map (fun p => p.1)

/-- The catalog codes whose schema entry lies in category `c` (twelve per
category). -/
def codesWithCat (c : Category) : List String :=
  (schemaList.filter (fun p => p.2.category = c)).map (fun p => p.1)

/-- A small well-formed answers map: two distinct catalog codes. -/
def pairAnswers : List (String × List String) :=
  [("STR_1", ["Always"]), ("STR_2", ["Never"])]

/-- An arbitrary aggregate, used only as the default of `Option.getD`. -/
def defaultAggregate : Aggregate :=
  { manager_name := "", reporting_to := "", raw_manager_name := "",
    raw_reporting_to := "", total_assessments := 0, first_assessment := none,
    last_assessment := none, category_totals := fun _ => 0,
    category_averages := fun _ => 0, subcategory_totals := fun _ => 0,
    subcategory_averages := fun _ => 0, subcategory_remarks := fun _ => [],
    score_distribution := fun _ => ⟨0, 0, 0⟩, confidence_score := 0,
    last_updated := 0 }

/-- An arbitrary legacy aggregate, used only as the default of
`Option.getD`. -/
def defaultLegacyAggregate : LegacyAggregate :=
  { manager_name := "", reporting_to := "", raw_manager_name := "",
    raw_reporting_to := "", total_assessments := 0, first_assessment := none,
    last_assessment := none, category_totals := fun _ => 0,
    category_averages := fun _ => 0,
    score_distribution := fun _ => ⟨0, 0, 0⟩, confidence_score := 0,
    last_updated := 0 }

/-- The aggregate with its wall-clock stamp blanked, to compare two runs
field by field. -/
def stripLastUpdated (a : Aggregate) : Aggregate := { a with last_updated := 0 }

/-- The legacy aggregate with its wall-clock stamp blanked. -/
def stripLegacyLastUpdated (a : LegacyAggregate) : LegacyAggregate :=
  { a with last_updated := 0 }

/-! ## Theorems -/

/-- C4: every question with polarity `reverse` scores
Never/Sometimes/Always as 3/2/1, and every question with polarity `direct`
or `reconfirmation` scores them as 1/2/3 — both in the `SCORE_MAP` table of
the processor and, row by row, in the `ASSESSMENT_QUESTIONS` catalog of the
SaaS scorer. -/
theorem polarity_correct :
    (ASSESSMENT_QUESTIONS.all (fun q => polarityOk q.qtype q.scores)) = true ∧
    polarityOk .direct (SCORE_MAP .direct) = true ∧
    polarityOk .reconfirmation (SCORE_MAP .reconfirmation) = true ∧
    polarityOk .reverse (SCORE_MAP .reverse) = true := by
  decide

/-- C5: band classification is closed on the lower threshold: any average
of at least 8 is green, at least 6 but below 8 is amber, below 6 is red;
in particular 8.0 is green, 7.99 is amber, 6.0 is amber and 5.99 is red. -/
theorem band_thresholds :
    (∀ q : ℚ, 8 ≤ q → score_band q = .green) ∧
    (∀ q : ℚ, 6 ≤ q → q < 8 → score_band q = .amber) ∧
    (∀ q : ℚ, q < 6 → score_band q = .red) ∧
    score_band 8 = .green ∧ score_band (799/100) = .amber ∧
    score_band 6 = .amber ∧ score_band (599/100) = .red := by
  refine ⟨?_, ?_, ?_, ?_, ?_, ?_, ?_⟩
  · intro q h; simp [score_band, h]
  · intro q h h8; simp [score_band, h, not_le.mpr h8]
  · intro q h
    have h8 : ¬ (8 : ℚ) ≤ q := by linarith
    have h6 : ¬ (6 : ℚ) ≤ q := by linarith
    simp [score_band, h8, h6]
  · norm_num [score_band]
  · norm_num [score_band]
  · norm_num [score_band]
  · norm_num [score_band]

/-- C5 witness: the banded theorem applied at 9, 7 and 0. -/
theorem band_thresholds_witness :
    score_band 9 = .green ∧ score_band 7 = .amber ∧ score_band 0 = .red :=
  ⟨band_thresholds.1 9 (by norm_num),
   band_thresholds.2.1 7 (by norm_num) (by norm_num),
   band_thresholds.2.2.1 0 (by norm_num)⟩

/-- C7: scoring an empty answers mapping yields a response whose category,
subcategory and segment totals are all zero, whose answered count is 0 and
whose completeness flag is false (the function is total: no exception). -/
theorem empty_answers_scored :
    (∀ c, (process_form_answers []).category_totals c = 0) ∧
    (∀ b, (process_form_answers []).subcategory_totals b = 0) ∧
    (∀ s, (process_form_answers []).segment_totals s = 0) ∧
    (∀ b, (process_form_answers []).subcategory_averages b = 0) ∧
    (process_form_answers []).overall_score = 0 ∧
    (process_form_answers []).answered_questions = 0 ∧
    (process_form_answers []).is_complete_response = false := by
  decide

/-- C8: aggregating a manager with zero stored responses yields the
distinguished `none` signal in all three aggregators — never a zeroed
aggregate (every non-empty list yields `some`, and `none` differs from all
of them) and never a crash (the functions are total). -/
theorem empty_aggregation_not_found :
    (∀ now, aggregate_manager_scores [] now = none) ∧
    (∀ name now, update_manager_aggregation name [] now = none) ∧
    (∀ name now, update_manager_aggregation_saas name [] now = none) ∧
    (∀ a L now, (aggregate_manager_scores (a :: L) now).isSome = true) ∧
    (∀ name a L now,
      (update_manager_aggregation name (a :: L) now).isSome = true) ∧
    (∀ a L now now2,
      aggregate_manager_scores [] now ≠ aggregate_manager_scores (a :: L) now2) := by
  refine ⟨fun _ => rfl, fun _ _ => rfl, fun _ _ => rfl, fun _ _ _ => rfl,
    fun _ _ _ _ => rfl, ?_⟩
  intro a L n1 n2 h
  simp [aggregate_manager_scores] at h

/-! ### Structural facts about the scorer -/

theorem process_category_totals (raw : List (String × List String)) :
    (process_form_answers raw).category_totals = categoryTotalsOf raw := rfl

theorem process_subcategory_totals (raw : List (String × List String)) :
    (process_form_answers raw).subcategory_totals = subcategoryTotalsOf raw := rfl

theorem process_answered (raw : List (String × List String)) :
    (process_form_answers raw).answered_questions = (answeredCodes raw).length := rfl

theorem process_missing (raw : List (String × List String)) :
    (process_form_answers raw).missing_questions =
      (schemaList.map (fun p => p.1)).filter
        (fun c => !((answeredCodes raw).contains c)) := rfl

theorem process_per_question (raw : List (String × List String)) :
    (process_form_answers raw).per_question_scores = perQuestionScore raw := rfl

/-- A keyword-bearing key is skipped by the scoring loop whatever its
value list is. -/
theorem scoreEntry_keyword_none (k : String) (vs : List String)
    (hk : keywordFiltered k = true) : scoreEntry (k, vs) = none := by
  cases vs with
  | nil => rfl
  | cons v t => simp [scoreEntry, hk]

/-- Dropping a keyword-filtered entry anywhere in the map leaves the scored
entries unchanged. -/
theorem scoredEntries_drop_keyword (k : String) (vs : List String)
    (m₁ m₂ : List (String × List String)) (hk : keywordFiltered k = true) :
    scoredEntries (m₁ ++ (k, vs) :: m₂) = scoredEntries (m₁ ++ m₂) := by
  simp [scoredEntries, List.filterMap_append, List.filterMap_cons,
    scoreEntry_keyword_none k vs hk]

/-- A code with a schema entry is one of the catalog keys. -/
theorem mem_schema_keys {code : String}
    (h : (QUESTION_SCHEMA code).isSome = true) :
    code ∈ schemaList.map (fun p => p.1) := by
  unfold QUESTION_SCHEMA at h
  cases hp : schemaList.find? (fun p => decide (p.1 = code)) with
  | none => rw [hp] at h; simp at h
  | some q =>
    have hmem := List.mem_of_find?_eq_some hp
    have hq := List.find?_some hp
    have hkey : q.1 = code := by simpa using hq
    exact hkey ▸ List.mem_map_of_mem (fun r => r.1) hmem

/-- A successfully scored loop entry resolves in the schema and its score
comes from `SCORE_MAP`. -/
theorem scoreEntry_shape {kv : String × List String} {e : ScoredEntry}
    (h : scoreEntry kv = some e) :
    ∃ qs, QUESTION_SCHEMA e.code = some qs ∧
      SCORE_MAP qs.qtype e.answer = some e.score := by
  unfold scoreEntry at h
  split at h
  · simp at h
  · split at h
    · simp at h
    · split at h
      · simp at h
      · split at h
        · simp at h
        · split at h
          · simp at h
          · injection h with h2
            subst h2
            exact ⟨_, by assumption, by assumption⟩

theorem mem_scoredEntries {raw : List (String × List String)}
    {e : ScoredEntry} (h : e ∈ scoredEntries raw) :
    ∃ qs, QUESTION_SCHEMA e.code = some qs ∧
      SCORE_MAP qs.qtype e.answer = some e.score := by
  obtain ⟨kv, _, hkv⟩ := List.mem_filterMap.mp h
  exact scoreEntry_shape hkv

/-- Every score delivered by `SCORE_MAP` lies between 1 and 3. -/
theorem SCORE_MAP_le_three {t : QType} {a : String} {s : ℤ}
    (h : SCORE_MAP t a = some s) : 1 ≤ s ∧ s ≤ 3 := by
  unfold SCORE_MAP at h
  split at h <;> cases t <;> simp_all <;> omega

/-- A code resolving to a schema entry of behavior `b` is one of that
behavior's three catalog codes. -/
theorem code_mem_codesWith {code : String} {qs : QSchema}
    (h : QUESTION_SCHEMA code = some qs) {b : Behavior}
    (hb : qs.behavior = b) : code ∈ codesWith b := by
  unfold QUESTION_SCHEMA at h
  obtain ⟨q, hfind, hq2⟩ := Option.map_eq_some'.mp h
  have hmem := List.mem_of_find?_eq_some hfind
  have hkeyb := List.find?_some hfind
  have hkey : q.1 = code := by simpa using hkeyb
  have : q ∈ schemaList.filter (fun p => decide (p.2.behavior = b)) :=
    List.mem_filter.mpr ⟨hmem, by simp [hq2, hb]⟩
  exact hkey ▸ List.mem_map_of_mem (fun r => r.1) this

/-- A code resolving to a schema entry of category `c` is one of that
category's twelve catalog codes. -/
theorem code_mem_codesWithCat {code : String} {qs : QSchema}
    (h : QUESTION_SCHEMA code = some qs) {c : Category}
    (hc : qs.category = c) : code ∈ codesWithCat c := by
  unfold QUESTION_SCHEMA at h
  obtain ⟨q, hfind, hq2⟩ := Option.map_eq_some'.mp h
  have hmem := List.mem_of_find?_eq_some hfind
  have hkeyb := List.find?_some hfind
  have hkey : q.1 = code := by simpa using hkeyb
  have : q ∈ schemaList.filter (fun p => decide (p.2.category = c)) :=
    List.mem_filter.mpr ⟨hmem, by simp [hq2, hc]⟩
  exact hkey ▸ List.mem_map_of_mem (fun r => r.1) this

theorem codesWith_length : ∀ b, (codesWith b).length = 3 := by decide

theorem codesWithCat_length : ∀ c, (codesWithCat c).length = 12 := by decide

/-- Sums of integers that are each at most 3 are at most 3 times the
length. -/
theorem sum_le_three_mul (l : List ℤ) (h : ∀ x ∈ l, x ≤ 3) :
    l.sum ≤ 3 * (l.length : ℤ) := by
  induction l with
  | nil => simp
  | cons a t ih =>
    have ha := h a (List.mem_cons_self a t)
    have ht := ih (fun x hx => h x (List.mem_cons_of_mem a hx))
    simp only [List.sum_cons, List.length_cons]
    push_cast
    linarith

/-- When no two scored entries share a resolved code, the scores of the
entries matching a schema predicate sum to at most 3 per code that can
match. -/
theorem entries_total_le (raw : List (String × List String))
    (p : QSchema → Bool) (codes : List String)
    (hnodup : ((scoredEntries raw).map (fun e => e.code)).Nodup)
    (hcodes : ∀ code qs, QUESTION_SCHEMA code = some qs → p qs = true →
      code ∈ codes) :
    ((entriesWhere raw p).map (fun e => e.score)).sum ≤
      3 * (codes.length : ℤ) := by
  have hsubl : List.Sublist (entriesWhere raw p) (scoredEntries raw) :=
    List.filter_sublist _
  have hcodesub :
      List.Sublist ((entriesWhere raw p).map (fun e => e.code))
        ((scoredEntries raw).map (fun e => e.code)) := hsubl.map _
  have hnd : ((entriesWhere raw p).map (fun e => e.code)).Nodup :=
    hnodup.sublist hcodesub
  have hsubset : ((entriesWhere raw p).map (fun e => e.code)) ⊆ codes := by
    intro x hx
    obtain ⟨e, he, rfl⟩ := List.mem_map.mp hx
    obtain ⟨hmem, hpred⟩ := List.mem_filter.mp he
    obtain ⟨qs, hqs, _⟩ := mem_scoredEntries hmem
    have hp : p qs = true := by
      rw [hqs] at hpred
      simpa using hpred
    exact hcodes _ _ hqs hp
  have hlen : (entriesWhere raw p).length ≤ codes.length := by
    have := (hnd.subperm hsubset).length_le
    simpa using this
  have hscores : ∀ x ∈ (entriesWhere raw p).map (fun e => e.score), x ≤ 3 := by
    intro x hx
    obtain ⟨e, he, rfl⟩ := List.mem_map.mp hx
    obtain ⟨qs, _, hsc⟩ := mem_scoredEntries (List.mem_of_mem_filter he)
    exact (SCORE_MAP_le_three hsc).2
  have hsum := sum_le_three_mul _ hscores
  have hlenmap : ((entriesWhere raw p).map (fun e => e.score)).length =
      (entriesWhere raw p).length := List.length_map _ _
  rw [hlenmap] at hsum
  have : (3 : ℤ) * ((entriesWhere raw p).length : ℤ) ≤ 3 * (codes.length : ℤ) := by
    have := hlen
    omega
  linarith

/-- C9 (amended): the catalog maxima hold for every answers mapping in
which no two entries resolve to the same catalog question code (automatic
for the id-keyed SaaS scorer): every per-question score is at most 3,
every subcategory total at most 9, every category total at most 36. -/
theorem catalog_maxima (raw : List (String × List String))
    (hnodup : ((scoredEntries raw).map (fun e => e.code)).Nodup) :
    (∀ code e, (process_form_answers raw).per_question_scores code = some e →
      e.score ≤ 3) ∧
    (∀ b, (process_form_answers raw).subcategory_totals b ≤ 9) ∧
    (∀ c, (process_form_answers raw).category_totals c ≤ 36) := by
  refine ⟨?_, ?_, ?_⟩
  · intro code e h
    rw [process_per_question] at h
    have h3 : e ∈ scoredEntries raw :=
      List.mem_reverse.mp (List.mem_of_find?_eq_some h)
    obtain ⟨qs, _, hsc⟩ := mem_scoredEntries h3
    exact (SCORE_MAP_le_three hsc).2
  · intro b
    rw [process_subcategory_totals]
    unfold subcategoryTotalsOf
    have key := entries_total_le raw (fun qs => decide (qs.behavior = b))
      (codesWith b) hnodup
      (fun code qs h hp => code_mem_codesWith h (of_decide_eq_true hp))
    rw [codesWith_length b] at key
    calc ((entriesWhere raw (fun qs => decide (qs.behavior = b))).map
          (fun e => e.score)).sum ≤ 3 * ((3 : ℕ) : ℤ) := key
      _ ≤ 9 := by norm_num
  · intro c
    rw [process_category_totals]
    unfold categoryTotalsOf
    have key := entries_total_le raw (fun qs => decide (qs.category = c))
      (codesWithCat c) hnodup
      (fun code qs h hp => code_mem_codesWithCat h (of_decide_eq_true hp))
    rw [codesWithCat_length c] at key
    calc ((entriesWhere raw (fun qs => decide (qs.category = c))).map
          (fun e => e.score)).sum ≤ 3 * ((12 : ℕ) : ℤ) := key
      _ ≤ 36 := by norm_num

/-- C9 witness: the amended bounds applied to a two-question map with
distinct codes. -/
theorem catalog_maxima_witness :
    (process_form_answers pairAnswers).subcategory_totals .honesty ≤ 9 ∧
    (process_form_answers pairAnswers).category_totals .trusting ≤ 36 := by
  have h := catalog_maxima pairAnswers (by decide)
  exact ⟨h.2.1 .honesty, h.2.2 .trusting⟩

/-- C9 counterexample: four distinct keys all resolving to catalog code
`STR_1`, each scored 3, drive the `honesty` subcategory total to 12 > 9
(and the claim's bound fails as stated for arbitrary answers mappings). -/
theorem catalog_maxima_counterexample :
    (process_form_answers dupKeyAnswers).subcategory_totals .honesty = 12 ∧
    ¬ (process_form_answers dupKeyAnswers).subcategory_totals .honesty ≤ 9 := by
  decide

/-- C10: an answers key containing `manager`, `report` or `timestamp`
(case-insensitively) is excluded from scoring wherever it sits in the map,
even when its first token is a valid catalog code: removing it changes no
scored entry, no category or subcategory total and not the answered count;
and when nothing else answers that code, the code stays in
`missing_questions`. -/
theorem keyword_keys_excluded (k : String) (vs : List String)
    (m₁ m₂ : List (String × List String)) (hk : keywordFiltered k = true) :
    scoredEntries (m₁ ++ (k, vs) :: m₂) = scoredEntries (m₁ ++ m₂) ∧
    (∀ c, (process_form_answers (m₁ ++ (k, vs) :: m₂)).category_totals c =
      (process_form_answers (m₁ ++ m₂)).category_totals c) ∧
    (∀ b, (process_form_answers (m₁ ++ (k, vs) :: m₂)).subcategory_totals b =
      (process_form_answers (m₁ ++ m₂)).subcategory_totals b) ∧
    ((process_form_answers (m₁ ++ (k, vs) :: m₂)).answered_questions =
      (process_form_answers (m₁ ++ m₂)).answered_questions) ∧
    (∀ tok, (wordsOf k).head? = some tok →
      (QUESTION_SCHEMA (stripStr tok)).isSome = true →
      stripStr tok ∉ answeredCodes (m₁ ++ m₂) →
      stripStr tok ∈
        (process_form_answers (m₁ ++ (k, vs) :: m₂)).missing_questions) := by
  have h1 := scoredEntries_drop_keyword k vs m₁ m₂ hk
  have hans : answeredCodes (m₁ ++ (k, vs) :: m₂) = answeredCodes (m₁ ++ m₂) := by
    simp [answeredCodes, h1]
  refine ⟨h1, ?_, ?_, ?_, ?_⟩
  · intro c
    rw [process_category_totals, process_category_totals]
    unfold categoryTotalsOf entriesWhere
    rw [h1]
  · intro b
    rw [process_subcategory_totals, process_subcategory_totals]
    unfold subcategoryTotalsOf entriesWhere
    rw [h1]
  · rw [process_answered, process_answered, hans]
  · intro tok htok hvalid hnot
    rw [process_missing]
    refine List.mem_filter.mpr ⟨mem_schema_keys hvalid, ?_⟩
    rw [hans]
    simpa using hnot

/-- C10 witness: the key `STR_1 manager x` is skipped (its `trusting`
total matches the map without it) and `STR_1` remains missing. -/
theorem keyword_keys_excluded_witness :
    (process_form_answers
        ([("STR_1 manager x", ["Always"]), ("STR_2 q", ["Always"])])).category_totals
      .trusting =
    (process_form_answers [("STR_2 q", ["Always"])]).category_totals .trusting ∧
    "STR_1" ∈
      (process_form_answers
        ([("STR_1 manager x", ["Always"]), ("STR_2 q", ["Always"])])).missing_questions := by
  have h := keyword_keys_excluded "STR_1 manager x" ["Always"] []
    [("STR_2 q", ["Always"])] (by decide)
  refine ⟨h.2.1 .trusting, ?_⟩
  have h5 := h.2.2.2.2 "STR_1" (by decide) (by decide) (by decide)
  simpa using h5

/-- C2: every subcategory average produced by `aggregate_manager_scores`
over a non-empty response list is the sum of that subcategory's
per-response marks divided by the total number of responses, rounded to two
decimals; and scenario B (one maximal plus one empty response) yields
`total_assessments = 2` with every subcategory average 4.5. -/
theorem subcat_average_denominator :
    (∀ (a : Assessment) (L : List Assessment) (now : ℕ) (agg : Aggregate),
      aggregate_manager_scores (a :: L) now = some agg →
      ∀ b, agg.subcategory_averages b =
        round2 ((((a :: L).map
          (fun x => x.processed.subcategory_totals b)).sum : ℚ) /
            (((a :: L).length : ℕ) : ℚ))) ∧
    ((aggregate_manager_scores scenarioB 0).map
      (fun agg => agg.total_assessments) = some 2) ∧
    (∀ b, (aggregate_manager_scores scenarioB 0).map
      (fun agg => agg.subcategory_averages b) = some (9/2)) := by
  refine ⟨?_, by decide, ?_⟩
  · intro a L now agg h b
    simp only [aggregate_manager_scores] at h
    injection h with h2
    subst h2
    show aggSubcategoryAverages (a :: L) b = _
    unfold aggSubcategoryAverages aggSubcategoryTotals
    simp [Function.comp_def]
  · have htot : ∀ b, aggSubcategoryTotals scenarioB b = 9 := by decide
    have hlen : scenarioB.length = 2 := by decide
    intro b
    have havg : aggSubcategoryAverages scenarioB b = 9/2 := by
      unfold aggSubcategoryAverages
      rw [htot b, hlen]
      norm_num [round2, round_eq]
    have hagg : (aggregate_manager_scores scenarioB 0).map
        (fun agg => agg.subcategory_averages b) =
        some (aggSubcategoryAverages scenarioB b) := rfl
    rw [hagg, havg]

/-- C2 witness: the general denominator law applied to scenario B at the
`honesty` subcategory. -/
theorem subcat_average_denominator_witness :
    ((aggregate_manager_scores scenarioB 0).getD
      defaultAggregate).subcategory_averages .honesty =
      round2 (((scenarioB.map
        (fun x => x.processed.subcategory_totals .honesty)).sum : ℚ) /
          ((scenarioB.length : ℕ) : ℚ)) := by
  have hsome : aggregate_manager_scores scenarioB 0 =
      some ((aggregate_manager_scores scenarioB 0).getD defaultAggregate) := rfl
  exact subcat_average_denominator.1 _ _ 0 _ hsome Behavior.honesty

/-- C1 (amended): in the aggregates of `aggregate_manager_scores` and
`update_manager_aggregation_saas`, each category average is exactly the
rounded sum of its four subcategory averages; the legacy
`update_manager_aggregation` instead stores the unrounded mean of
per-response category totals (see the counterexample). -/
theorem category_from_subcategories :
    (∀ (L : List Assessment) (now : ℕ) (agg : Aggregate),
      aggregate_manager_scores L now = some agg →
      ∀ c, agg.category_averages c =
        round2 (((SUBCATEGORY_ORDER c).map agg.subcategory_averages).sum)) ∧
    (∀ (name : String) (docs : List SaasResponse) (now : ℕ)
      (agg : SaasAggregate),
      update_manager_aggregation_saas name docs now = some agg →
      ∀ c, agg.category_averages c =
        round2 (((SUBCATEGORY_ORDER c).map agg.subcategory_averages).sum)) := by
  constructor
  · intro L now agg h c
    cases L with
    | nil => simp [aggregate_manager_scores] at h
    | cons a rest =>
      simp only [aggregate_manager_scores] at h
      injection h with h2
      subst h2
      rfl
  · intro name docs now agg h c
    cases docs with
    | nil => simp [update_manager_aggregation_saas] at h
    | cons d rest =>
      simp only [update_manager_aggregation_saas] at h
      injection h with h2
      subst h2
      rfl

/-- C1 witness: the bottom-up identity evaluated on the three-assessment
list at the `trusting` category. -/
theorem category_from_subcategories_witness :
    ((aggregate_manager_scores threeAssessments 0).getD
      defaultAggregate).category_averages .trusting =
      round2 (((SUBCATEGORY_ORDER .trusting).map
        ((aggregate_manager_scores threeAssessments 0).getD
          defaultAggregate).subcategory_averages).sum) := by
  have hsome : aggregate_manager_scores threeAssessments 0 =
      some ((aggregate_manager_scores threeAssessments 0).getD
        defaultAggregate) := rfl
  exact category_from_subcategories.1 _ 0 _ hsome Category.trusting

/-- C1 counterexample: on three responses with trusting totals 1, 0, 0 the
legacy aggregator reports a trusting category average of 1/3, while the
rounded bottom-up sum of the same data's subcategory averages is 0.33 —
the claimed identity fails for the legacy aggregation operation. -/
theorem category_from_subcategories_counterexample :
    ((update_manager_aggregation "M" threeAssessments 0).map
      (fun a => a.category_averages Category.trusting)) = some (1/3) ∧
    ((aggregate_manager_scores threeAssessments 0).map
      (fun a => round2 (((SUBCATEGORY_ORDER Category.trusting).map
        a.subcategory_averages).sum))) = some (33/100) ∧
    (1 : ℚ)/3 ≠ 33/100 := by
  have hl : threeAssessments.length = 3 := by decide
  have hcat : aggCategoryTotals threeAssessments Category.trusting = 1 := by
    decide
  have hs1 : aggSubcategoryTotals threeAssessments Behavior.honesty = 1 := by
    decide
  have hs2 : aggSubcategoryTotals threeAssessments Behavior.delegation = 0 := by
    decide
  have hs3 : aggSubcategoryTotals threeAssessments Behavior.support = 0 := by
    decide
  have hs4 : aggSubcategoryTotals threeAssessments Behavior.communication = 0 := by
    decide
  refine ⟨?_, ?_, by norm_num⟩
  · have hmap : ((update_manager_aggregation "M" threeAssessments 0).map
        (fun a => a.category_averages Category.trusting)) =
        some (legacyCategoryAverages threeAssessments Category.trusting) := rfl
    rw [hmap]
    have : legacyCategoryAverages threeAssessments Category.trusting = 1/3 := by
      unfold legacyCategoryAverages
      rw [hcat, hl]
      norm_num
    rw [this]
  · have hmap : ((aggregate_manager_scores threeAssessments 0).map
        (fun a => round2 (((SUBCATEGORY_ORDER Category.trusting).map
          a.subcategory_averages).sum))) =
        some (round2 (((SUBCATEGORY_ORDER Category.trusting).map
          (aggSubcategoryAverages threeAssessments)).sum)) := rfl
    rw [hmap]
    have e1 : aggSubcategoryAverages threeAssessments Behavior.honesty = 33/100 := by
      unfold aggSubcategoryAverages
      rw [hs1, hl]
      norm_num [round2, round_eq]
    have e2 : aggSubcategoryAverages threeAssessments Behavior.delegation = 0 := by
      unfold aggSubcategoryAverages
      rw [hs2, hl]
      norm_num [round2, round_eq]
    have e3 : aggSubcategoryAverages threeAssessments Behavior.support = 0 := by
      unfold aggSubcategoryAverages
      rw [hs3, hl]
      norm_num [round2, round_eq]
    have e4 : aggSubcategoryAverages threeAssessments Behavior.communication = 0 := by
      unfold aggSubcategoryAverages
      rw [hs4, hl]
      norm_num [round2, round_eq]
    have hsum : ((SUBCATEGORY_ORDER Category.trusting).map
        (aggSubcategoryAverages threeAssessments)).sum = 33/100 := by
      simp [SUBCATEGORY_ORDER, e1, e2, e3, e4]
    rw [hsum]
    norm_num [round2, round_eq]

/-- C3 counterexample: the aggregate embeds the wall-clock `last_updated`
stamp, so two aggregation runs over the very same unchanged list (at
successive instants 0 and 1) are not byte-for-byte identical. -/
theorem aggregation_idempotent_counterexample :
    aggregate_manager_scores threeAssessments 0 ≠
      aggregate_manager_scores threeAssessments 1 := by
  intro h
  have h2 : (some 0 : Option ℕ) = some 1 :=
    congrArg (fun o => o.map (fun a => a.last_updated)) h
  simp at h2

/-- C3 (amended): apart from the `last_updated` wall-clock stamp, two runs
of either aggregator over the same unchanged response list produce
identical aggregates in every field. -/
theorem aggregation_idempotent_modulo_time :
    (∀ (L : List Assessment) (t₁ t₂ : ℕ),
      (aggregate_manager_scores L t₁).map stripLastUpdated =
        (aggregate_manager_scores L t₂).map stripLastUpdated) ∧
    (∀ (name : String) (L : List Assessment) (t₁ t₂ : ℕ),
      (update_manager_aggregation name L t₁).map stripLegacyLastUpdated =
        (update_manager_aggregation name L t₂).map stripLegacyLastUpdated) := by
  refine ⟨fun L t₁ t₂ => ?_, fun name L t₁ t₂ => ?_⟩ <;> cases L <;> rfl

/-- In a list sorted by timestamp, the last element carries a maximal
timestamp. -/
theorem le_getLast_of_sorted :
    ∀ (l : List Assessment) (hne : l ≠ []),
      l.Pairwise (fun x y => tsval x ≤ tsval y) →
      ∀ x ∈ l, tsval x ≤ tsval (l.getLast hne) := by
  intro l
  induction l with
  | nil => intro hne; cases hne rfl
  | cons a t ih =>
    intro hne hsort x hx
    cases t with
    | nil =>
      have : x = a := by simpa using hx
      subst this
      simp [List.getLast]
    | cons b t2 =>
      have hne2 : b :: t2 ≠ [] := by simp
      have hgl : (a :: b :: t2).getLast hne = (b :: t2).getLast hne2 :=
        List.getLast_cons hne2
      obtain ⟨hhead, htail⟩ := List.pairwise_cons.mp hsort
      rcases List.mem_cons.mp hx with rfl | hx2
      · rw [hgl]
        exact hhead _ (List.getLast_mem hne2)
      · rw [hgl]
        exact ih hne2 htail x hx2

/-- C6: when `aggregate_manager_scores` receives a non-empty list of
responses that all carry timestamps, ordered by submission time ascending
(the order in which the aggregator loads them), `first_assessment` and
`last_assessment` are the minimum and maximum submission timestamps, and
`reporting_to` is taken from a response with maximal submission time (last
write wins). -/
theorem timeline_and_latest_reporting (a : Assessment) (L : List Assessment)
    (now now₂ : ℕ) (name : String) (agg : Aggregate) (lagg : LegacyAggregate)
    (hagg : aggregate_manager_scores (a :: L) now = some agg)
    (hlagg : update_manager_aggregation name (a :: L) now₂ = some lagg)
    (hts : ∀ x ∈ (a :: L), (timestampOf x).isSome = true)
    (hsort : (a :: L).Pairwise (fun x y => tsval x ≤ tsval y)) :
    (∃ x ∈ (a :: L), agg.first_assessment = timestampOf x ∧
      ∀ y ∈ (a :: L), tsval x ≤ tsval y) ∧
    (∃ x ∈ (a :: L), agg.last_assessment = timestampOf x ∧
      ∀ y ∈ (a :: L), tsval y ≤ tsval x) ∧
    (∃ x ∈ (a :: L), agg.reporting_to = x.processed.reporting_to ∧
      ∀ y ∈ (a :: L), tsval y ≤ tsval x) ∧
    lagg.first_assessment = agg.first_assessment ∧
    lagg.last_assessment = agg.last_assessment ∧
    (∃ x ∈ (a :: L), lagg.reporting_to = x.processed.reporting_to ∧
      ∀ y ∈ (a :: L), tsval y ≤ tsval x) := by
  simp only [aggregate_manager_scores] at hagg
  injection hagg with h2
  subst h2
  simp only [update_manager_aggregation] at hlagg
  injection hlagg with h3
  subst h3
  have hmem_ts : ∀ y ∈ (a :: L), (timestampOf y).getD 0 ∈ aggTimestamps (a :: L) := by
    intro y hy
    obtain ⟨v, hv⟩ := Option.isSome_iff_exists.mp (hts y hy)
    rw [hv]
    exact List.mem_filterMap.mpr ⟨y, hy, by simp [hv]⟩
  have hne : a :: L ≠ [] := List.cons_ne_nil a L
  have hlast : ∃ x ∈ (a :: L),
      ((a :: L).getLast hne).processed.reporting_to = x.processed.reporting_to ∧
      ∀ y ∈ (a :: L), tsval y ≤ tsval x :=
    ⟨(a :: L).getLast hne, List.getLast_mem hne, rfl,
      le_getLast_of_sorted (a :: L) hne hsort⟩
  refine ⟨?_, ?_, hlast, rfl, rfl, hlast⟩
  · obtain ⟨m, hm⟩ := Option.isSome_iff_exists.mp
      (List.isSome_min?_of_mem (hmem_ts a (List.mem_cons_self a L)))
    obtain ⟨hmmem, hmle⟩ := List.min?_eq_some_iff'.mp hm
    obtain ⟨x, hx, hxts⟩ := List.mem_filterMap.mp hmmem
    refine ⟨x, hx, ?_, ?_⟩
    · show (aggTimestamps (a :: L)).min? = timestampOf x
      rw [hm, hxts]
    · intro y hy
      have h1 : tsval x = m := by simp [tsval, hxts]
      have h2 := hmle _ (hmem_ts y hy)
      simp only [tsval] at h1 ⊢
      omega
  · obtain ⟨m, hm⟩ := Option.isSome_iff_exists.mp
      (List.isSome_max?_of_mem (hmem_ts a (List.mem_cons_self a L)))
    obtain ⟨hmmem, hmle⟩ := List.max?_eq_some_iff'.mp hm
    obtain ⟨x, hx, hxts⟩ := List.mem_filterMap.mp hmmem
    refine ⟨x, hx, ?_, ?_⟩
    · show (aggTimestamps (a :: L)).max? = timestampOf x
      rw [hm, hxts]
    · intro y hy
      have h1 : tsval x = m := by simp [tsval, hxts]
      have h2 := hmle _ (hmem_ts y hy)
      simp only [tsval] at h1 ⊢
      omega

/-- C6 witness: the timeline law applied to scenario B (timestamps 1 then
2). -/
theorem timeline_and_latest_reporting_witness :
    (∃ x ∈ scenarioB, ((aggregate_manager_scores scenarioB 0).getD
        defaultAggregate).first_assessment = timestampOf x ∧
      ∀ y ∈ scenarioB, tsval x ≤ tsval y) ∧
    (∃ x ∈ scenarioB, ((aggregate_manager_scores scenarioB 0).getD
        defaultAggregate).last_assessment = timestampOf x ∧
      ∀ y ∈ scenarioB, tsval y ≤ tsval x) ∧
    (∃ x ∈ scenarioB, ((aggregate_manager_scores scenarioB 0).getD
        defaultAggregate).reporting_to = x.processed.reporting_to ∧
      ∀ y ∈ scenarioB, tsval y ≤ tsval x) := by
  have hsome : aggregate_manager_scores scenarioB 0 =
      some ((aggregate_manager_scores scenarioB 0).getD defaultAggregate) := rfl
  have hlsome : update_manager_aggregation "M" scenarioB 0 =
      some ((update_manager_aggregation "M" scenarioB 0).getD
        defaultLegacyAggregate) := rfl
  have h := timeline_and_latest_reporting _ _ 0 0 "M" _ _ hsome hlsome
    (by decide) (by decide)
  exact ⟨h.1, h.2.1, h.2.2.1⟩
